import Mathlib

/-!
Verification development for the interview orchestration and evaluation
engine of `backend/app/ai/interview_logic.py`.

The embedding models the pure text-processing and state-update core of
`InterviewManager`:

* the response parsing pipeline `_extract_scores` / `_extract_stage`
  (a leftmost-match model of the two regular expressions, a strict JSON
  reader standing for `json.loads`, and Python `float(...)` coercion with
  its error behaviour),
* the stage update rule `_update_stage` and the per-turn state update of
  `process_message`,
* the final aggregation `get_final_score` together with
  `_generate_simple_reasoning`.

Modelling conventions:

* Python floats are modelled as exact rationals; `round(x, 1)` is modelled
  as decimal rounding half to even on the rational value.
* Python exceptions that `InterviewManager` can leak to its caller are
  modelled with `Except PyErr`; `json.JSONDecodeError` (the one exception
  the source catches) is modelled by the JSON reader returning `none`.
* The JSON reader covers the strict JSON grammar used by `json.loads`;
  the CPython extensions NaN/Infinity, lone-surrogate escapes and the
  interpreter recursion limit are outside the model, as are non-ASCII
  Unicode digits in the stage marker and underscores or the words
  inf/infinity/nan inside `float(...)` string arguments.  No claim below
  depends on those corners.
* Dictionary values whose keys are not one of the three category keys are
  carried through `self.scores.update(...)` by the source but are never
  read back by any modelled operation, so the score store keeps only the
  three category fields.
-/

/-- A decoded JSON value, the result type of the `json.loads` model. -/
inductive JsonVal where
  | null : JsonVal
  | bool (b : Bool) : JsonVal
  | num (q : ℚ) : JsonVal
  | str (s : List Char) : JsonVal
  | arr (elems : List JsonVal) : JsonVal
  | obj (fields : List (List Char × JsonVal)) : JsonVal

/-- Python exceptions that can escape the modelled methods. -/
inductive PyErr where
  | valueError : PyErr
  | typeError : PyErr
  | attributeError : PyErr
deriving DecidableEq

/-- Decidable test that `pat` is a prefix of `s`. -/
def startsWith : List Char → List Char → Bool
  | [], _ => true
  | _ :: _, [] => false
  | p :: ps, c :: cs => p = c && startsWith ps cs

/-- First occurrence of `pat` inside `s`: returns the text before the
occurrence and the text after it.  This is the substring-search core of
the `re.search` model for the two tag patterns. -/
def splitAtFirst (pat : List Char) : List Char → Option (List Char × List Char)
  | [] => none
  | c :: cs =>
    if startsWith pat (c :: cs) then some ([], (c :: cs).drop pat.length)
    else
      match splitAtFirst pat cs with
      | none => none
      | some (b, a) => some (c :: b, a)

/-- Model of `re.search(openPat + "(.*?)" + closePat, s, re.DOTALL)`:
the captured group of the leftmost match, i.e. the text between the first
occurrence of `openPat` and the first occurrence of `closePat` after it. -/
def findTagged (openPat closePat s : List Char) : Option (List Char) :=
  match splitAtFirst openPat s with
  | none => none
  | some (_, afterOpen) =>
    match splitAtFirst closePat afterOpen with
    | none => none
    | some (content, _) => some content

/-- Maximal leading run of ASCII digits, with the rest of the input. -/
def digitsRun : List Char → List Char × List Char
  | [] => ([], [])
  | c :: cs =>
    if c.isDigit then
      match digitsRun cs with
      | (d, r) => (c :: d, r)
    else ([], c :: cs)

/-- Numeric value of a digit run (most significant digit first). -/
def digitsToNat (ds : List Char) : Nat :=
  ds.foldl (fun acc c => acc * 10 + (c.toNat - 48)) 0

/-- Drop the JSON whitespace characters space, tab, newline, return. -/
def skipWs : List Char → List Char
  | [] => []
  | c :: cs =>
    if c = ' ' ∨ c = '\t' ∨ c = '\n' ∨ c = '\r' then skipWs cs else c :: cs

/-- Value of a hexadecimal digit, if any. -/
def hexVal (c : Char) : Option Nat :=
  if '0' ≤ c ∧ c ≤ '9' then some (c.toNat - 48)
  else if 'a' ≤ c ∧ c ≤ 'f' then some (c.toNat - 87)
  else if 'A' ≤ c ∧ c ≤ 'F' then some (c.toNat - 70)
  else none

/-- Body of a JSON string after the opening quote: decoded characters and
the rest of the input after the closing quote.  Escapes are decoded as in
strict-mode `json.loads`; raw control characters are rejected. -/
def parseStrBody : Nat → List Char → Option (List Char × List Char)
  | 0, _ => none
  | _ + 1, [] => none
  | fuel + 1, c :: cs =>
    if c = '"' then some ([], cs)
    else if c = '\\' then
      match cs with
      | [] => none
      | e :: cs2 =>
        if e = '"' ∨ e = '\\' ∨ e = '/' then
          (parseStrBody fuel cs2).map (fun pr => (e :: pr.1, pr.2))
        else if e = 'b' then
          (parseStrBody fuel cs2).map (fun pr => (Char.ofNat 8 :: pr.1, pr.2))
        else if e = 'f' then
          (parseStrBody fuel cs2).map (fun pr => (Char.ofNat 12 :: pr.1, pr.2))
        else if e = 'n' then
          (parseStrBody fuel cs2).map (fun pr => ('\n' :: pr.1, pr.2))
        else if e = 'r' then
          (parseStrBody fuel cs2).map (fun pr => ('\r' :: pr.1, pr.2))
        else if e = 't' then
          (parseStrBody fuel cs2).map (fun pr => ('\t' :: pr.1, pr.2))
        else if e = 'u' then
          match cs2 with
          | h1 :: h2 :: h3 :: h4 :: cs3 =>
            match hexVal h1, hexVal h2, hexVal h3, hexVal h4 with
            | some a, some b, some c3, some d =>
              let code := ((a * 16 + b) * 16 + c3) * 16 + d
              if 0xD800 ≤ code ∧ code < 0xDC00 then
                match cs3 with
                | '\\' :: 'u' :: g1 :: g2 :: g3 :: g4 :: cs4 =>
                  match hexVal g1, hexVal g2, hexVal g3, hexVal g4 with
                  | some a2, some b2, some c4, some d2 =>
                    let lo := ((a2 * 16 + b2) * 16 + c4) * 16 + d2
                    if 0xDC00 ≤ lo ∧ lo < 0xE000 then
                      let combined := 0x10000 + (code - 0xD800) * 0x400 + (lo - 0xDC00)
                      (parseStrBody fuel cs4).map
                        (fun pr => (Char.ofNat combined :: pr.1, pr.2))
                    else
                      (parseStrBody fuel cs3).map
                        (fun pr => (Char.ofNat code :: pr.1, pr.2))
                  | _, _, _, _ => none
                | _ =>
                  (parseStrBody fuel cs3).map
                    (fun pr => (Char.ofNat code :: pr.1, pr.2))
              else
                (parseStrBody fuel cs3).map
                  (fun pr => (Char.ofNat code :: pr.1, pr.2))
            | _, _, _, _ => none
          | _ => none
        else none
    else if c.toNat < 0x20 then none
    else (parseStrBody fuel cs).map (fun pr => (c :: pr.1, pr.2))

/-- A JSON number at the head of the input, following the strict JSON
number grammar used by `json.loads` (leading-zero rule included); returns
its exact rational value and the unconsumed rest. -/
def parseNumber (s : List Char) : Option (ℚ × List Char) :=
  let signed := match s with
    | '-' :: r => (true, r)
    | _ => (false, s)
  let neg := signed.1
  let s1 := signed.2
  let ipPair : List Char × List Char := match s1 with
    | '0' :: r => (['0'], r)
    | _ => digitsRun s1
  let ip := ipPair.1
  let r1 := ipPair.2
  if ip = [] then none
  else
    let fracPair : List Char × List Char := match r1 with
      | '.' :: rr =>
        match digitsRun rr with
        | ([], _) => ([], r1)
        | (f, r) => (f, r)
      | _ => ([], r1)
    let fds := fracPair.1
    let r2 := fracPair.2
    let expTriple : Bool × Nat × List Char := match r2 with
      | 'e' :: rr =>
        (match rr with
          | '+' :: t => (match digitsRun t with
            | ([], _) => (false, 0, r2)
            | (ds, r) => (false, digitsToNat ds, r))
          | '-' :: t => (match digitsRun t with
            | ([], _) => (false, 0, r2)
            | (ds, r) => (true, digitsToNat ds, r))
          | _ => (match digitsRun rr with
            | ([], _) => (false, 0, r2)
            | (ds, r) => (false, digitsToNat ds, r)))
      | 'E' :: rr =>
        (match rr with
          | '+' :: t => (match digitsRun t with
            | ([], _) => (false, 0, r2)
            | (ds, r) => (false, digitsToNat ds, r))
          | '-' :: t => (match digitsRun t with
            | ([], _) => (false, 0, r2)
            | (ds, r) => (true, digitsToNat ds, r))
          | _ => (match digitsRun rr with
            | ([], _) => (false, 0, r2)
            | (ds, r) => (false, digitsToNat ds, r)))
      | _ => (false, 0, r2)
    let eneg := expTriple.1
    let emag := expTriple.2.1
    let r3 := expTriple.2.2
    let mantissa : ℚ :=
      (digitsToNat ip : ℚ) +
        (if fds = [] then 0 else (digitsToNat fds : ℚ) / ((10 : ℚ) ^ fds.length))
    let mag : ℚ :=
      if eneg then mantissa / ((10 : ℚ) ^ emag) else mantissa * ((10 : ℚ) ^ emag)
    some ((if neg then -mag else mag), r3)

/-- Python-dict insertion: an existing key keeps its position and takes the
new value, a new key is appended. -/
def dictInsert : List (List Char × JsonVal) → List Char × JsonVal →
    List (List Char × JsonVal)
  | [], kv => [kv]
  | (k, v) :: rest, kv =>
    if k = kv.1 then (k, kv.2) :: rest else (k, v) :: dictInsert rest kv

mutual

/-- A JSON value at the head of the input (whitespace-tolerant), with the
unconsumed rest; `fuel` bounds the recursion depth. -/
def parseValue : Nat → List Char → Option (JsonVal × List Char)
  | 0, _ => none
  | fuel + 1, s =>
    match skipWs s with
    | 'n' :: 'u' :: 'l' :: 'l' :: r => some (JsonVal.null, r)
    | 't' :: 'r' :: 'u' :: 'e' :: r => some (JsonVal.bool true, r)
    | 'f' :: 'a' :: 'l' :: 's' :: 'e' :: r => some (JsonVal.bool false, r)
    | '"' :: r => (parseStrBody (r.length + 1) r).map
        (fun pr => (JsonVal.str pr.1, pr.2))
    | '[' :: r =>
      (match skipWs r with
        | ']' :: r2 => some (JsonVal.arr [], r2)
        | r2 => (parseElems fuel r2).map (fun pr => (JsonVal.arr pr.1, pr.2)))
    | '{' :: r =>
      (match skipWs r with
        | '}' :: r2 => some (JsonVal.obj [], r2)
        | r2 => (parseMembers fuel r2).map
            (fun pr => (JsonVal.obj (pr.1.foldl dictInsert []), pr.2)))
    | s2 => (parseNumber s2).map (fun pr => (JsonVal.num pr.1, pr.2))

/-- The elements of a non-empty JSON array, up to and including `]`. -/
def parseElems : Nat → List Char → Option (List JsonVal × List Char)
  | 0, _ => none
  | fuel + 1, s =>
    match parseValue fuel s with
    | none => none
    | some (v, r) =>
      match skipWs r with
      | ',' :: r2 => (parseElems fuel r2).map (fun pr => (v :: pr.1, pr.2))
      | ']' :: r2 => some ([v], r2)
      | _ => none

/-- The members of a non-empty JSON object, up to and including the
closing brace, in textual order (duplicates not yet collapsed). -/
def parseMembers : Nat → List Char →
    Option (List (List Char × JsonVal) × List Char)
  | 0, _ => none
  | fuel + 1, s =>
    match skipWs s with
    | '"' :: r =>
      match parseStrBody (r.length + 1) r with
      | none => none
      | some (key, r2) =>
        match skipWs r2 with
        | ':' :: r3 =>
          match parseValue fuel r3 with
          | none => none
          | some (v, r4) =>
            match skipWs r4 with
            | ',' :: r5 => (parseMembers fuel r5).map
                (fun pr => ((key, v) :: pr.1, pr.2))
            | '}' :: r5 => some ([(key, v)], r5)
            | _ => none
        | _ => none
    | _ => none

end

/-- Model of `json.loads`: `none` stands for `json.JSONDecodeError`. -/
def json_loads (s : List Char) : Option JsonVal :=
  match parseValue (2 * s.length + 2) s with
  | none => none
  | some (v, r) => if skipWs r = [] then some v else none

/-- Model of Python `float(s)` on a string argument: an optional sign and
a decimal literal with optional fraction and exponent, surrounded by
optional whitespace; `none` stands for `ValueError`. -/
def pyFloatOfStr (s : List Char) : Option ℚ :=
  let s0 := skipWs s
  let signed := match s0 with
    | '-' :: r => (true, r)
    | '+' :: r => (false, r)
    | _ => (false, s0)
  let neg := signed.1
  let s1 := signed.2
  let ipPair := digitsRun s1
  let ip := ipPair.1
  let fracPair : List Char × List Char := match ipPair.2 with
    | '.' :: rr => digitsRun rr
    | _ => ([], ipPair.2)
  let fds := fracPair.1
  let r2 := fracPair.2
  if ip = [] ∧ fds = [] then none
  else
    let expStep : Option (Bool × Nat × List Char) := match r2 with
      | 'e' :: rr =>
        (match rr with
          | '+' :: t => (match digitsRun t with
            | ([], _) => none
            | (ds, r) => some (false, digitsToNat ds, r))
          | '-' :: t => (match digitsRun t with
            | ([], _) => none
            | (ds, r) => some (true, digitsToNat ds, r))
          | _ => (match digitsRun rr with
            | ([], _) => none
            | (ds, r) => some (false, digitsToNat ds, r)))
      | 'E' :: rr =>
        (match rr with
          | '+' :: t => (match digitsRun t with
            | ([], _) => none
            | (ds, r) => some (false, digitsToNat ds, r))
          | '-' :: t => (match digitsRun t with
            | ([], _) => none
            | (ds, r) => some (true, digitsToNat ds, r))
          | _ => (match digitsRun rr with
            | ([], _) => none
            | (ds, r) => some (false, digitsToNat ds, r)))
      | _ => some (false, 0, r2)
    match expStep with
    | none => none
    | some (eneg, emag, r3) =>
      if skipWs r3 = [] then
        let mantissa : ℚ :=
          (digitsToNat ip : ℚ) +
            (if fds = [] then 0
             else (digitsToNat fds : ℚ) / ((10 : ℚ) ^ fds.length))
        let mag : ℚ :=
          if eneg then mantissa / ((10 : ℚ) ^ emag)
          else mantissa * ((10 : ℚ) ^ emag)
        some (if neg then -mag else mag)
      else none

deriving instance DecidableEq for Except

/-- The three evaluation categories of the score store. -/
inductive ScoreCategory where
  | resume_fit : ScoreCategory
  | hard_skills : ScoreCategory
  | soft_skills : ScoreCategory
deriving DecidableEq

/-- The per-category score store `self.scores` (initialised to all zeros
in `__init__`). -/
structure Scores where
  resume_fit : ℚ
  hard_skills : ℚ
  soft_skills : ℚ
deriving DecidableEq

/-- Lookup `self.scores[c]`. -/
def Scores.get (s : Scores) : ScoreCategory → ℚ
  | ScoreCategory.resume_fit => s.resume_fit
  | ScoreCategory.hard_skills => s.hard_skills
  | ScoreCategory.soft_skills => s.soft_skills

/-- Pointwise store update `self.scores[c] = q`. -/
def Scores.set (s : Scores) : ScoreCategory → ℚ → Scores
  | ScoreCategory.resume_fit, q => { s with resume_fit := q }
  | ScoreCategory.hard_skills, q => { s with hard_skills := q }
  | ScoreCategory.soft_skills, q => { s with soft_skills := q }

/-- The category entries of the dictionary returned by `_extract_scores`:
a field is `some v` exactly when the decoded score block bound that
category key (to a floatable value), with `v` already clamped. -/
structure ScoresDict where
  resume_fit : Option ℚ
  hard_skills : Option ℚ
  soft_skills : Option ℚ
deriving DecidableEq

/-- The clamp `max(0, min(100, x))` applied to every parsed category
value in `_extract_scores`. -/
def clampScore (q : ℚ) : ℚ := max 0 (min 100 q)

/-- Model of Python `float(value)` on a decoded JSON value: numbers pass
through, booleans coerce to 0/1, strings are parsed (`ValueError` when
not numeric), anything else is a `TypeError`. -/
def floatOfJson : JsonVal → Except PyErr ℚ
  | JsonVal.num q => Except.ok q
  | JsonVal.bool b => Except.ok (if b then 1 else 0)
  | JsonVal.str s =>
    match pyFloatOfStr s with
    | some q => Except.ok q
    | none => Except.error PyErr.valueError
  | JsonVal.null => Except.error PyErr.typeError
  | JsonVal.arr _ => Except.error PyErr.typeError
  | JsonVal.obj _ => Except.error PyErr.typeError

/-- One iteration of the `for key, value in scores.items()` loop of
`_extract_scores`: category keys are coerced with `float` and clamped,
other keys are left alone. -/
def applyEntry (d : ScoresDict) (kv : List Char × JsonVal) :
    Except PyErr ScoresDict :=
  if kv.1 = "resume_fit".data then
    match floatOfJson kv.2 with
    | Except.error e => Except.error e
    | Except.ok q => Except.ok { d with resume_fit := some (clampScore q) }
  else if kv.1 = "hard_skills".data then
    match floatOfJson kv.2 with
    | Except.error e => Except.error e
    | Except.ok q => Except.ok { d with hard_skills := some (clampScore q) }
  else if kv.1 = "soft_skills".data then
    match floatOfJson kv.2 with
    | Except.error e => Except.error e
    | Except.ok q => Except.ok { d with soft_skills := some (clampScore q) }
  else Except.ok d

/-- The whole `for key, value in scores.items()` loop; the first `float`
failure escapes the (too narrow) `except json.JSONDecodeError` handler. -/
def applyEntries : ScoresDict → List (List Char × JsonVal) →
    Except PyErr ScoresDict
  | d, [] => Except.ok d
  | d, kv :: rest =>
    match applyEntry d kv with
    | Except.error e => Except.error e
    | Except.ok d2 => applyEntries d2 rest

/-- The opening tag of the score block. -/
def scoresOpenTag : List Char := "<SCORES>".data

/-- The closing tag of the score block. -/
def scoresCloseTag : List Char := "</SCORES>".data

/-- Model of `InterviewManager._extract_scores`: the `<SCORES>` block is
located with a leftmost non-greedy regex search, decoded with
`json.loads` (whose decode errors are caught, yielding `None`), and the
category entries are `float`-coerced and clamped — any `float` failure or
`.items()` on a non-object escapes as an exception. -/
def extract_scores (resp : List Char) : Except PyErr (Option ScoresDict) :=
  match findTagged scoresOpenTag scoresCloseTag resp with
  | none => Except.ok none
  | some content =>
    match json_loads content with
    | none => Except.ok none
    | some (JsonVal.obj kvs) =>
      match applyEntries ⟨none, none, none⟩ kvs with
      | Except.error e => Except.error e
      | Except.ok d => Except.ok (some d)
    | some _ => Except.error PyErr.attributeError

/-- Does the pattern `<STAGE>(\d+)</STAGE>` match at the head of `s`?  If
so, the value of the digit group. -/
def matchStageAt (s : List Char) : Option Nat :=
  if startsWith "<STAGE>".data s then
    match digitsRun (s.drop ("<STAGE>".data).length) with
    | ([], _) => none
    | (ds, r2) =>
      if startsWith "</STAGE>".data r2 then some (digitsToNat ds) else none
  else none

/-- Model of `InterviewManager._extract_stage`: the digit group of the
leftmost match of `<STAGE>(\d+)</STAGE>`, if any. -/
def extract_stage : List Char → Option Nat
  | [] => none
  | c :: cs =>
    match matchStageAt (c :: cs) with
    | some n => some n
    | none => extract_stage cs

/-- The `elif` fallback chain of `_update_stage`: advance one stage when
the category matching the current stage already has a positive score. -/
def heuristicStage (sc : Scores) (cur : Nat) : Nat :=
  if sc.resume_fit > 0 ∧ cur = 1 then 2
  else if sc.hard_skills > 0 ∧ cur = 2 then 3
  else if sc.soft_skills > 0 ∧ cur = 3 then 4
  else cur

/-- Model of `InterviewManager._update_stage`: an extracted stage marker
is adopted when truthy (`if stage:` — so a marker of 0 is ignored, like a
missing one), otherwise the heuristic chain runs. -/
def update_stage (resp : List Char) (sc : Scores) (cur : Nat) : Nat :=
  match extract_stage resp with
  | some n => if n ≠ 0 then n else heuristicStage sc cur
  | none => heuristicStage sc cur

/-- The mutable session state touched by `process_message`:
`self.current_stage` and `self.scores`. -/
structure SessionState where
  current_stage : Nat
  scores : Scores
deriving DecidableEq

/-- The state set up by `__init__`: stage 1, all scores 0. -/
def initState : SessionState := ⟨1, ⟨0, 0, 0⟩⟩

/-- Apply the dictionary returned by `_extract_scores` to the score
store, as `self.scores.update(scores)` does for the category keys. -/
def Scores.updateWith (s : Scores) (d : ScoresDict) : Scores :=
  ⟨d.resume_fit.getD s.resume_fit,
   d.hard_skills.getD s.hard_skills,
   d.soft_skills.getD s.soft_skills⟩

/-- The dictionary returned by one `process_message` call. -/
structure Reply where
  message : List Char
  stage : Nat
  scores_out : Option Scores
deriving DecidableEq

/-- Model of `InterviewManager.process_message` from the oracle reply on:
the oracle text `resp` is parsed for scores (exceptions propagate), the
score store is updated when a dictionary came back, `_update_stage` runs
on the same text, and the reply reports the scores only at stage 4. -/
def process_message (st : SessionState) (resp : List Char) :
    Except PyErr (SessionState × Reply) :=
  match extract_scores resp with
  | Except.error e => Except.error e
  | Except.ok od =>
    let sc := match od with
      | some d => st.scores.updateWith d
      | none => st.scores
    let stage := update_stage resp sc st.current_stage
    Except.ok (⟨stage, sc⟩,
      ⟨resp, stage, if stage = 4 then some sc else none⟩)

/-- The three per-stage interview-focus flags of a vacancy. -/
structure VacancyFocus where
  interview_focus_resume_fit : Bool
  interview_focus_hard_skills : Bool
  interview_focus_soft_skills : Bool
deriving DecidableEq

/-- The `enabled_stages` list built at the top of `get_final_score`, in
the source's append order. -/
def enabledStages (v : VacancyFocus) : List ScoreCategory :=
  (if v.interview_focus_resume_fit then [ScoreCategory.resume_fit] else []) ++
  (if v.interview_focus_hard_skills then [ScoreCategory.hard_skills] else []) ++
  (if v.interview_focus_soft_skills then [ScoreCategory.soft_skills] else [])

/-- Floor of a rational, computed directly on its reduced fraction. -/
def ratFloor (q : ℚ) : ℤ := q.num.fdiv (q.den : ℤ)

/-- Python `round` to an integer: round half to even on the exact value. -/
def pyRoundHalfEven (q : ℚ) : ℤ :=
  let f := ratFloor q
  let r := q - (f : ℚ)
  if r < 1 / 2 then f
  else if 1 / 2 < r then f + 1
  else if f % 2 = 0 then f else f + 1

/-- Python `round(x, 1)` on the exact rational value. -/
def round1 (q : ℚ) : ℚ := ((pyRoundHalfEven (q * 10) : ℚ)) / 10

/-- Model of `_generate_simple_reasoning`: one fixed sentence per banded
category score. -/
def generate_simple_reasoning (sc : Scores) : List String :=
  [if sc.resume_fit ≥ 80 then "Strong alignment with job requirements"
   else if sc.resume_fit ≥ 60 then "Good overall fit with minor gaps"
   else "Some mismatches in basic requirements",
   if sc.hard_skills ≥ 80 then "Excellent technical competency"
   else if sc.hard_skills ≥ 60 then "Solid technical skills"
   else "Technical skills need development",
   if sc.soft_skills ≥ 80 then "Strong communication and motivation"
   else if sc.soft_skills ≥ 60 then "Good interpersonal skills"
   else "Soft skills could be improved"]

/-- The dictionary returned by `get_final_score`: either one of its two
`error` dictionaries, or the full evaluation payload. -/
inductive FinalResult where
  | err (msg : String) : FinalResult
  | ok (overall : ℚ) (breakdown : Scores) (reasoning : List String)
      (enabled : List ScoreCategory) : FinalResult
deriving DecidableEq

/-- The `overall_relevance` entry of a successful `get_final_score`. -/
def FinalResult.overallQ : FinalResult → Option ℚ
  | FinalResult.err _ => none
  | FinalResult.ok o _ _ _ => some o

/-- The `breakdown` entry of a successful `get_final_score`. -/
def FinalResult.breakdownQ : FinalResult → Option Scores
  | FinalResult.err _ => none
  | FinalResult.ok _ b _ _ => some b

/-- Model of `InterviewManager.get_final_score`: readiness requires every
enabled category's stored score to be positive, the overall score is the
unweighted mean of the enabled scores rounded to one decimal (0 when no
category is enabled), and the breakdown is a copy of the raw score
store. -/
def get_final_score (vac : Option VacancyFocus) (st : SessionState) :
    FinalResult :=
  match vac with
  | none => FinalResult.err "Interview data not available"
  | some v =>
    if ∀ q ∈ (enabledStages v).map st.scores.get, 0 < q then
      FinalResult.ok
        (if enabledStages v = [] then 0
         else round1 (((enabledStages v).map st.scores.get).sum /
           (((enabledStages v).map st.scores.get).length : ℚ)))
        st.scores (generate_simple_reasoning st.scores) (enabledStages v)
    else FinalResult.err "Interview not completed"

/-- A full weight assignment for the three categories. -/
structure Weights where
  resume_fit : ℚ
  hard_skills : ℚ
  soft_skills : ℚ
deriving DecidableEq

/-- Weight lookup by category. -/
def Weights.get (w : Weights) : ScoreCategory → ℚ
  | ScoreCategory.resume_fit => w.resume_fit
  | ScoreCategory.hard_skills => w.hard_skills
  | ScoreCategory.soft_skills => w.soft_skills

/-- The static weights set in `__init__`:
resume_fit 0.30, hard_skills 0.40, soft_skills 0.30. -/
def static_weights : Weights := ⟨3 / 10, 4 / 10, 3 / 10⟩

/-- The overall score as the specification describes it (for comparison
with `get_final_score`): weighted sum over the enabled categories with
the weights renormalized to sum to 1 over the enabled subset, rounded to
one decimal place. -/
def specWeightedOverall (w : Weights) (v : VacancyFocus) (sc : Scores) : ℚ :=
  let enabled := enabledStages v
  let totalW := (enabled.map w.get).sum
  round1 (((enabled.map (fun c => w.get c * sc.get c)).sum) / totalW)

/-- Modelled from the spec: the dynamic category-weight policy is absent
from the sources under `src/` (only the live test script reads a
`weights` entry of the final evaluation), so it is taken from the
specification's words — start from the static weights, then apply, in
this fixed order with later rules overriding earlier ones on shared keys:
required-skill-count > 5 sets hard_skills 0.50, resume_fit 0.25,
soft_skills 0.25; a remote work arrangement sets resume_fit 0.20 and
soft_skills 0.40 (hard_skills untouched); an internship sets hard_skills
0.30 and soft_skills 0.40 (resume_fit untouched). -/
def calculate_dynamic_weights (required_skill_count : Nat)
    (is_remote is_internship : Bool) : Weights :=
  let w0 := static_weights
  let w1 := if required_skill_count > 5 then
      { w0 with hard_skills := 1 / 2, resume_fit := 1 / 4, soft_skills := 1 / 4 }
    else w0
  let w2 := if is_remote then
      { w1 with resume_fit := 1 / 5, soft_skills := 2 / 5 }
    else w1
  let w3 := if is_internship then
      { w2 with hard_skills := 3 / 10, soft_skills := 2 / 5 }
    else w2
  w3

/-- Every category entry present in a parsed score dictionary lies in
the interval 0 to 100. -/
def DictClamped (d : ScoresDict) : Prop :=
  (∀ q, d.resume_fit = some q → 0 ≤ q ∧ q ≤ 100) ∧
  (∀ q, d.hard_skills = some q → 0 ≤ q ∧ q ≤ 100) ∧
  (∀ q, d.soft_skills = some q → 0 ≤ q ∧ q ≤ 100)

theorem clampScore_nonneg_le (q : ℚ) : 0 ≤ clampScore q ∧ clampScore q ≤ 100 :=
  ⟨le_max_left 0 _, max_le (by norm_num) (min_le_left _ _)⟩

theorem clampScore_of_gt (q : ℚ) (h : 100 < q) : clampScore q = 100 := by
  unfold clampScore
  rw [min_eq_left h.le]
  exact max_eq_right (by norm_num)

theorem clampScore_of_lt (q : ℚ) (h : q < 0) : clampScore q = 0 := by
  unfold clampScore
  rw [min_eq_right (le_trans h.le (by norm_num))]
  exact max_eq_left h.le

theorem applyEntry_clamped (d : ScoresDict) (kv : List Char × JsonVal)
    (d2 : ScoresDict) (hd : DictClamped d)
    (h : applyEntry d kv = Except.ok d2) : DictClamped d2 := by
  unfold applyEntry at h
  split_ifs at h
  · cases hf : floatOfJson kv.2 with
    | error e => rw [hf] at h; simp at h
    | ok q =>
      rw [hf] at h
      simp only [Except.ok.injEq] at h
      subst h
      refine ⟨?_, hd.2.1, hd.2.2⟩
      intro q2 hq2
      injection hq2 with h3
      subst h3
      exact clampScore_nonneg_le q
  · cases hf : floatOfJson kv.2 with
    | error e => rw [hf] at h; simp at h
    | ok q =>
      rw [hf] at h
      simp only [Except.ok.injEq] at h
      subst h
      refine ⟨hd.1, ?_, hd.2.2⟩
      intro q2 hq2
      injection hq2 with h3
      subst h3
      exact clampScore_nonneg_le q
  · cases hf : floatOfJson kv.2 with
    | error e => rw [hf] at h; simp at h
    | ok q =>
      rw [hf] at h
      simp only [Except.ok.injEq] at h
      subst h
      refine ⟨hd.1, hd.2.1, ?_⟩
      intro q2 hq2
      injection hq2 with h3
      subst h3
      exact clampScore_nonneg_le q
  · simp only [Except.ok.injEq] at h
    subst h
    exact hd

theorem applyEntries_clamped (kvs : List (List Char × JsonVal)) :
    ∀ d d2, DictClamped d → applyEntries d kvs = Except.ok d2 →
      DictClamped d2 := by
  induction kvs with
  | nil =>
    intro d d2 hd h
    unfold applyEntries at h
    simp only [Except.ok.injEq] at h
    subst h
    exact hd
  | cons kv rest ih =>
    intro d d2 hd h
    unfold applyEntries at h
    cases hae : applyEntry d kv with
    | error e => rw [hae] at h; simp at h
    | ok dmid =>
      rw [hae] at h
      exact ih dmid d2 (applyEntry_clamped d kv dmid hd hae) h

theorem process_message_ok_none (st : SessionState) (resp : List Char)
    (h : extract_scores resp = Except.ok none) :
    process_message st resp = Except.ok
      (⟨update_stage resp st.scores st.current_stage, st.scores⟩,
       ⟨resp, update_stage resp st.scores st.current_stage,
        if update_stage resp st.scores st.current_stage = 4 then
          some st.scores else none⟩) := by
  unfold process_message
  rw [h]

theorem process_message_ok_some (st : SessionState) (resp : List Char)
    (d : ScoresDict) (h : extract_scores resp = Except.ok (some d)) :
    process_message st resp = Except.ok
      (⟨update_stage resp (st.scores.updateWith d) st.current_stage,
        st.scores.updateWith d⟩,
       ⟨resp, update_stage resp (st.scores.updateWith d) st.current_stage,
        if update_stage resp (st.scores.updateWith d) st.current_stage = 4 then
          some (st.scores.updateWith d) else none⟩) := by
  unfold process_message
  rw [h]

theorem process_message_stage_eq (st : SessionState) (resp : List Char)
    (pr : SessionState × Reply)
    (hp : process_message st resp = Except.ok pr) :
    pr.1.current_stage = update_stage resp pr.1.scores st.current_stage := by
  cases hex : extract_scores resp with
  | error e =>
    unfold process_message at hp
    rw [hex] at hp
    simp at hp
  | ok od =>
    cases od with
    | none =>
      have h2 := process_message_ok_none st resp hex
      rw [hp] at h2
      have h3 := Except.ok.inj h2
      subst h3
      rfl
    | some d =>
      have h2 := process_message_ok_some st resp d hex
      rw [hp] at h2
      have h3 := Except.ok.inj h2
      subst h3
      rfl

theorem update_stage_marker (resp : List Char) (sc : Scores) (cur n : Nat)
    (h : extract_stage resp = some n) (hn : n ≠ 0) :
    update_stage resp sc cur = n := by
  unfold update_stage
  rw [h]
  simp [hn]

theorem update_stage_no_marker (resp : List Char) (sc : Scores) (cur : Nat)
    (h : extract_stage resp = none) :
    update_stage resp sc cur = heuristicStage sc cur := by
  unfold update_stage
  rw [h]

theorem update_stage_zero_marker (resp : List Char) (sc : Scores) (cur : Nat)
    (h : extract_stage resp = some 0) :
    update_stage resp sc cur = heuristicStage sc cur := by
  unfold update_stage
  rw [h]
  simp

theorem heuristicStage_ge (sc : Scores) (cur : Nat) :
    cur ≤ heuristicStage sc cur := by
  unfold heuristicStage
  split_ifs with h1 h2 h3
  · rw [h1.2]; omega
  · rw [h2.2]; omega
  · rw [h3.2]; omega
  · exact le_refl cur

theorem heuristicStage_step (sc : Scores) (cur : Nat) :
    heuristicStage sc cur = cur ∨ heuristicStage sc cur = cur + 1 := by
  unfold heuristicStage
  split_ifs with h1 h2 h3
  · right; rw [h1.2]
  · right; rw [h2.2]
  · right; rw [h3.2]
  · left; rfl

theorem heuristicStage_four (sc : Scores) : heuristicStage sc 4 = 4 := by
  simp [heuristicStage]

theorem Scores.get_set_ne (s : Scores) (c c2 : ScoreCategory) (q : ℚ)
    (h : c2 ≠ c) : (s.set c q).get c2 = s.get c2 := by
  cases c <;> cases c2 <;> first | (exact absurd rfl h) | rfl

unseal Rat.add Rat.mul Rat.sub Rat.inv in
/-- C1 (counterexample): at a reachable session state with all three
categories enabled and stored scores 90, 60, 60 — readiness holds —
`get_final_score` reports overall 70.0 (the unweighted mean), while the
claimed renormalized weighted sum under the static weights is 69.0, so
the claim as stated fails at this session. -/
theorem C1_counterexample :
    (∀ c ∈ enabledStages ⟨true, true, true⟩, 0 < (Scores.mk 90 60 60).get c) ∧
    (get_final_score (some ⟨true, true, true⟩)
      ⟨4, ⟨90, 60, 60⟩⟩).overallQ = some 70 ∧
    specWeightedOverall static_weights ⟨true, true, true⟩ ⟨90, 60, 60⟩ = 69 ∧
    (70 : ℚ) ≠ 69 := by decide

/-- C1 (amended): for every session whose enabled categories all have a
positive stored score (and at least one category enabled), the overall
score computed by `get_final_score` is the unweighted arithmetic mean of
the enabled categories' scores rounded to one decimal place — each
enabled category weighted equally, not by the category weights.  (On
Scenario B's scores 70/60/50 this also yields 60.0, coinciding with the
weighted example.) -/
theorem C1_overall_unweighted_mean (v : VacancyFocus) (st : SessionState)
    (h : ∀ c ∈ enabledStages v, 0 < st.scores.get c)
    (hne : enabledStages v ≠ []) :
    (get_final_score (some v) st).overallQ =
      some (round1 (((enabledStages v).map st.scores.get).sum /
        (((enabledStages v).map st.scores.get).length : ℚ))) := by
  have hP : ∀ q ∈ (enabledStages v).map st.scores.get, 0 < q := by
    intro q hq
    obtain ⟨c, hc, rfl⟩ := List.mem_map.mp hq
    exact h c hc
  simp only [get_final_score]
  rw [if_pos hP, if_neg hne]
  rfl

unseal Rat.add Rat.mul Rat.sub Rat.inv in
/-- Witness for C1 at Scenario B: all three categories enabled with
scores 70, 60, 50 — the mean rounds to 60.0. -/
theorem C1_witness :
    (∀ c ∈ enabledStages ⟨true, true, true⟩, 0 < (Scores.mk 70 60 50).get c) ∧
    enabledStages ⟨true, true, true⟩ ≠ [] ∧
    (get_final_score (some ⟨true, true, true⟩)
      ⟨4, ⟨70, 60, 50⟩⟩).overallQ = some 60 :=
  ⟨by decide, by decide,
    (C1_overall_unweighted_mean ⟨true, true, true⟩ ⟨4, ⟨70, 60, 50⟩⟩
      (by decide) (by decide)).trans (by decide)⟩

/-- C2 (code bug): on a reply whose score block is the valid JSON object
binding resume_fit to the non-numeric string "abc", `_extract_scores`
raises `ValueError` from `float(...)` — `except json.JSONDecodeError`
does not catch it — so the parser does not satisfy the never-raises
contract for every input. -/
theorem C2_parser_raises_on_nonnumeric_score :
    extract_scores "<SCORES>\x7b\"resume_fit\": \"abc\"\x7d</SCORES>".data =
      Except.error PyErr.valueError := by decide

/-- C3 (counterexample): a turn whose reply contains no score block at
all (the claim covers absent blocks) but carries the marker
`<STAGE>3</STAGE>` moves the stage from 1 to 3 with scores untouched —
the post-turn stage differs from the pre-turn stage. -/
theorem C3_counterexample :
    extract_scores "Let us continue. <STAGE>3</STAGE>".data = Except.ok none ∧
    process_message ⟨1, ⟨0, 0, 0⟩⟩ "Let us continue. <STAGE>3</STAGE>".data =
      Except.ok (⟨3, ⟨0, 0, 0⟩⟩,
        ⟨"Let us continue. <STAGE>3</STAGE>".data, 3, none⟩) ∧
    (3 : Nat) ≠ 1 := by decide

/-- C3 (amended): on a turn whose reply has an absent or syntactically
invalid score block, no exception propagates and the stored scores are
exactly the pre-turn scores; the stage is also unchanged provided the
reply carries no stage marker and the heuristic advance condition for
the current stage does not already hold of the pre-turn scores. -/
theorem C3_malformed_block_preserves_state (st : SessionState)
    (resp : List Char) (hmal : extract_scores resp = Except.ok none) :
    ∃ pr, process_message st resp = Except.ok pr ∧
      pr.1.scores = st.scores ∧
      (extract_stage resp = none →
        ¬(st.scores.resume_fit > 0 ∧ st.current_stage = 1) →
        ¬(st.scores.hard_skills > 0 ∧ st.current_stage = 2) →
        ¬(st.scores.soft_skills > 0 ∧ st.current_stage = 3) →
        pr.1.current_stage = st.current_stage) := by
  refine ⟨_, process_message_ok_none st resp hmal, rfl, ?_⟩
  intro hn h1 h2 h3
  show update_stage resp st.scores st.current_stage = st.current_stage
  rw [update_stage_no_marker resp st.scores st.current_stage hn]
  unfold heuristicStage
  rw [if_neg h1, if_neg h2, if_neg h3]

/-- Witness for C3: a plain reply with neither block nor marker leaves
the freshly initialised session unchanged. -/
theorem C3_witness :
    extract_scores "hello".data = Except.ok none ∧
    ∃ pr, process_message initState "hello".data = Except.ok pr ∧
      pr.1.scores = initState.scores ∧
      (extract_stage "hello".data = none →
        ¬(initState.scores.resume_fit > 0 ∧ initState.current_stage = 1) →
        ¬(initState.scores.hard_skills > 0 ∧ initState.current_stage = 2) →
        ¬(initState.scores.soft_skills > 0 ∧ initState.current_stage = 3) →
        pr.1.current_stage = initState.current_stage) :=
  ⟨by decide,
    C3_malformed_block_preserves_state initState "hello".data (by decide)⟩

/-- C4 (counterexample): the reply `<STAGE>0</STAGE>` carries an explicit
parsed marker with N = 0, yet `if stage:` treats 0 as falsy, so a session
at stage 2 stays at stage 2 instead of adopting 0. -/
theorem C4_counterexample :
    extract_stage "<STAGE>0</STAGE>".data = some 0 ∧
    process_message ⟨2, ⟨0, 0, 0⟩⟩ "<STAGE>0</STAGE>".data =
      Except.ok (⟨2, ⟨0, 0, 0⟩⟩, ⟨"<STAGE>0</STAGE>".data, 2, none⟩) ∧
    (2 : Nat) ≠ 0 := by decide

/-- C4 (amended): on every turn that completes without an exception and
whose reply carries an explicit stage marker with a nonzero value N, the
stage after the turn is exactly N, regardless of the prior stage —
forward jumps and backward regressions included; a marker of 0 is
ignored like a missing one (Python falsiness) and the heuristic fallback
applies instead. -/
theorem C4_nonzero_marker_adopted (st : SessionState) (resp : List Char)
    (n : Nat) (pr : SessionState × Reply)
    (hn : extract_stage resp = some n) (hnz : n ≠ 0)
    (hp : process_message st resp = Except.ok pr) :
    pr.1.current_stage = n := by
  have hst := process_message_stage_eq st resp pr hp
  rw [update_stage_marker resp pr.1.scores st.current_stage n hn hnz] at hst
  exact hst

/-- Witness for C4: a backward jump — the marker 2 is adopted from
stage 4. -/
theorem C4_witness :
    extract_stage "Back we go. <STAGE>2</STAGE>".data = some 2 ∧
    (2 : Nat) ≠ 0 ∧
    process_message ⟨4, ⟨10, 20, 30⟩⟩ "Back we go. <STAGE>2</STAGE>".data =
      Except.ok (⟨2, ⟨10, 20, 30⟩⟩,
        ⟨"Back we go. <STAGE>2</STAGE>".data, 2, none⟩) ∧
    (((⟨2, ⟨10, 20, 30⟩⟩, ⟨"Back we go. <STAGE>2</STAGE>".data, 2, none⟩) :
      SessionState × Reply)).1.current_stage = 2 :=
  ⟨by decide, by decide, by decide,
    C4_nonzero_marker_adopted ⟨4, ⟨10, 20, 30⟩⟩ "Back we go. <STAGE>2</STAGE>".data 2
      (⟨2, ⟨10, 20, 30⟩⟩, ⟨"Back we go. <STAGE>2</STAGE>".data, 2, none⟩)
      (by decide) (by decide) (by decide)⟩

/-- C5 (counterexample): a session at the terminal stage 4 leaves
FINISHED when the oracle emits the explicit marker `<STAGE>2</STAGE>` —
FINISHED does have an outgoing transition. -/
theorem C5_counterexample :
    process_message ⟨4, ⟨70, 80, 90⟩⟩ "<STAGE>2</STAGE>".data =
      Except.ok (⟨2, ⟨70, 80, 90⟩⟩, ⟨"<STAGE>2</STAGE>".data, 2, none⟩) ∧
    (2 : Nat) ≠ 4 := by decide

/-- C5 (amended): FINISHED is terminal for marker-free turns: on every
turn that completes without an exception and whose reply carries no
stage marker (or only the ignored zero marker), a session at stage 4
stays at stage 4 — only an explicit nonzero marker can leave FINISHED. -/
theorem C5_terminal_without_marker (st : SessionState) (resp : List Char)
    (pr : SessionState × Reply) (h4 : st.current_stage = 4)
    (hm : extract_stage resp = none ∨ extract_stage resp = some 0)
    (hp : process_message st resp = Except.ok pr) :
    pr.1.current_stage = 4 := by
  have hst := process_message_stage_eq st resp pr hp
  rw [h4] at hst
  cases hm with
  | inl h =>
    rw [update_stage_no_marker resp pr.1.scores 4 h] at hst
    rw [hst, heuristicStage_four]
  | inr h =>
    rw [update_stage_zero_marker resp pr.1.scores 4 h] at hst
    rw [hst, heuristicStage_four]

/-- Witness for C5: a marker-free reply keeps a finished session at
stage 4. -/
theorem C5_witness :
    (⟨4, (⟨75, 85, 95⟩ : Scores)⟩ : SessionState).current_stage = 4 ∧
    (extract_stage "Thank you for your time!".data = none ∨
      extract_stage "Thank you for your time!".data = some 0) ∧
    process_message ⟨4, ⟨75, 85, 95⟩⟩ "Thank you for your time!".data =
      Except.ok (⟨4, ⟨75, 85, 95⟩⟩,
        ⟨"Thank you for your time!".data, 4, some ⟨75, 85, 95⟩⟩) ∧
    (((⟨4, ⟨75, 85, 95⟩⟩, ⟨"Thank you for your time!".data, 4,
        some ⟨75, 85, 95⟩⟩) : SessionState × Reply)).1.current_stage = 4 :=
  ⟨by decide, Or.inl (by decide), by decide,
    C5_terminal_without_marker ⟨4, ⟨75, 85, 95⟩⟩ "Thank you for your time!".data
      (⟨4, ⟨75, 85, 95⟩⟩, ⟨"Thank you for your time!".data, 4, some ⟨75, 85, 95⟩⟩)
      (by decide) (Or.inl (by decide)) (by decide)⟩

unseal Rat.add Rat.mul Rat.sub Rat.inv in
/-- C6 (counterexample): with soft_skills disabled but the oracle
reporting soft_skills 90 in its score block, the turn stores 90, and the
final evaluation's per-category breakdown reports soft_skills as 90 —
not 0 as the claim requires. -/
theorem C6_counterexample :
    process_message initState
      "<SCORES>\x7b\"resume_fit\": 80, \"hard_skills\": 70, \"soft_skills\": 90\x7d</SCORES><STAGE>4</STAGE>".data =
      Except.ok (⟨4, ⟨80, 70, 90⟩⟩,
        ⟨"<SCORES>\x7b\"resume_fit\": 80, \"hard_skills\": 70, \"soft_skills\": 90\x7d</SCORES><STAGE>4</STAGE>".data,
         4, some ⟨80, 70, 90⟩⟩) ∧
    get_final_score (some ⟨true, true, false⟩) ⟨4, ⟨80, 70, 90⟩⟩ =
      FinalResult.ok 75 ⟨80, 70, 90⟩
        ["Strong alignment with job requirements", "Solid technical skills",
         "Strong communication and motivation"]
        [ScoreCategory.resume_fit, ScoreCategory.hard_skills] ∧
    (Scores.mk 80 70 90).soft_skills ≠ 0 := by decide

/-- C6 (amended): a disabled category is excluded from the readiness
check and contributes nothing to the overall score (its stored value can
be changed arbitrarily without affecting the overall result or the
not-ready outcome — weight 0 in effect) — but the per-category breakdown
reports the raw stored score, which can be nonzero when the oracle
reported a value for the disabled category. -/
theorem C6_disabled_category_excluded (v : VacancyFocus) (n : Nat)
    (sc : Scores) (c : ScoreCategory) (q : ℚ)
    (h : c ∉ enabledStages v) :
    (get_final_score (some v) ⟨n, Scores.set sc c q⟩).overallQ =
      (get_final_score (some v) ⟨n, sc⟩).overallQ ∧
    (get_final_score (some v) ⟨n, Scores.set sc c q⟩ =
        FinalResult.err "Interview not completed" ↔
      get_final_score (some v) ⟨n, sc⟩ =
        FinalResult.err "Interview not completed") ∧
    ((get_final_score (some v) ⟨n, sc⟩).breakdownQ = none ∨
      (get_final_score (some v) ⟨n, sc⟩).breakdownQ = some sc) := by
  have hm : (enabledStages v).map (Scores.set sc c q).get =
      (enabledStages v).map sc.get := by
    apply List.map_congr_left
    intro a ha
    exact Scores.get_set_ne sc c a q (fun he => h (he ▸ ha))
  refine ⟨?_, ?_, ?_⟩
  · simp only [get_final_score]
    rw [hm]
    split_ifs <;> rfl
  · simp only [get_final_score]
    rw [hm]
    split_ifs <;> simp
  · simp only [get_final_score]
    split_ifs <;> simp [FinalResult.breakdownQ]

unseal Rat.add Rat.mul Rat.sub Rat.inv in
/-- Witness for C6: soft_skills disabled; rewriting its stored score
from 90 to 17 changes neither the overall score nor readiness, and the
breakdown is the raw store. -/
theorem C6_witness :
    ScoreCategory.soft_skills ∉ enabledStages ⟨true, true, false⟩ ∧
    ((get_final_score (some ⟨true, true, false⟩)
        ⟨4, Scores.set ⟨80, 70, 90⟩ ScoreCategory.soft_skills 17⟩).overallQ =
      (get_final_score (some ⟨true, true, false⟩)
        ⟨4, (⟨80, 70, 90⟩ : Scores)⟩).overallQ ∧
    (get_final_score (some ⟨true, true, false⟩)
        ⟨4, Scores.set ⟨80, 70, 90⟩ ScoreCategory.soft_skills 17⟩ =
        FinalResult.err "Interview not completed" ↔
      get_final_score (some ⟨true, true, false⟩)
        ⟨4, (⟨80, 70, 90⟩ : Scores)⟩ =
        FinalResult.err "Interview not completed") ∧
    ((get_final_score (some ⟨true, true, false⟩)
        ⟨4, (⟨80, 70, 90⟩ : Scores)⟩).breakdownQ = none ∨
      (get_final_score (some ⟨true, true, false⟩)
        ⟨4, (⟨80, 70, 90⟩ : Scores)⟩).breakdownQ =
        some ⟨80, 70, 90⟩)) :=
  ⟨by decide,
    C6_disabled_category_excluded ⟨true, true, false⟩ 4 ⟨80, 70, 90⟩
      ScoreCategory.soft_skills 17 (by decide)⟩

/-- C7 (confirmed): with a vacancy bound to the session,
`get_final_score` returns the not-ready outcome as the ordinary
dictionary `error: Interview not completed` exactly when some enabled
category's stored score is not positive (an unset score is stored as 0),
and produces the evaluation payload whenever every enabled category's
score is positive; no exception is involved (the operation is total). -/
theorem C7_not_ready_iff (v : VacancyFocus) (st : SessionState) :
    (get_final_score (some v) st = FinalResult.err "Interview not completed" ↔
      ∃ c ∈ enabledStages v, st.scores.get c ≤ 0) ∧
    ((∀ c ∈ enabledStages v, 0 < st.scores.get c) →
      ∃ o, get_final_score (some v) st =
        FinalResult.ok o st.scores (generate_simple_reasoning st.scores)
          (enabledStages v)) := by
  constructor
  · constructor
    · intro h
      by_cases hall : ∀ q ∈ (enabledStages v).map st.scores.get, 0 < q
      · simp only [get_final_score] at h
        rw [if_pos hall] at h
        exact absurd h (by simp)
      · push_neg at hall
        obtain ⟨q, hq, hle⟩ := hall
        obtain ⟨c, hc, rfl⟩ := List.mem_map.mp hq
        exact ⟨c, hc, hle⟩
    · intro ⟨c, hc, hle⟩
      simp only [get_final_score]
      rw [if_neg]
      intro hall
      exact absurd (hall _ (List.mem_map_of_mem _ hc)) (not_lt.mpr hle)
  · intro h
    have hP : ∀ q ∈ (enabledStages v).map st.scores.get, 0 < q := by
      intro q hq
      obtain ⟨c, hc, rfl⟩ := List.mem_map.mp hq
      exact h c hc
    simp only [get_final_score]
    rw [if_pos hP]
    exact ⟨_, rfl⟩

/-- Witness for C7: with all three categories enabled and hard_skills
still 0, the not-ready dictionary is returned. -/
theorem C7_witness :
    (∃ c ∈ enabledStages ⟨true, true, true⟩, (Scores.mk 50 0 50).get c ≤ 0) ∧
    get_final_score (some ⟨true, true, true⟩) ⟨2, ⟨50, 0, 50⟩⟩ =
      FinalResult.err "Interview not completed" :=
  ⟨by decide,
    (C7_not_ready_iff ⟨true, true, true⟩ ⟨2, ⟨50, 0, 50⟩⟩).1.mpr (by decide)⟩

unseal Rat.add Rat.mul Rat.sub Rat.inv in
/-- C8 (confirmed against the spec-modelled weighting policy): the
dynamic weights start from the static 0.30/0.40/0.30 and apply the
skill-count, remote and internship rules in that order with later rules
overriding earlier ones on shared keys: a required-skill count of 6
alone yields resume_fit 0.25, hard_skills 0.50, soft_skills 0.25
(Scenario D); with 5 or fewer skills and no other rule the static
weights survive; adding the remote rule on top of the skill-count rule
overrides resume_fit and soft_skills but leaves hard_skills 0.50; the
internship rule then overrides hard_skills and soft_skills. -/
theorem C8_dynamic_weight_rules :
    calculate_dynamic_weights 6 false false = ⟨1 / 4, 1 / 2, 1 / 4⟩ ∧
    calculate_dynamic_weights 5 false false = static_weights ∧
    calculate_dynamic_weights 6 true false = ⟨1 / 5, 1 / 2, 2 / 5⟩ ∧
    calculate_dynamic_weights 6 true true = ⟨1 / 5, 3 / 10, 2 / 5⟩ ∧
    calculate_dynamic_weights 0 true true = ⟨1 / 5, 3 / 10, 2 / 5⟩ := by
  decide

/-- C9 (confirmed): on every turn that completes without an exception
and whose reply carries no stage marker, the stage after the turn is at
least the stage before it, and it either stays put or advances exactly
one stage — only an explicit marker can regress or skip. -/
theorem C9_no_marker_monotone (st : SessionState) (resp : List Char)
    (pr : SessionState × Reply)
    (hm : extract_stage resp = none)
    (hp : process_message st resp = Except.ok pr) :
    st.current_stage ≤ pr.1.current_stage ∧
      (pr.1.current_stage = st.current_stage ∨
        pr.1.current_stage = st.current_stage + 1) := by
  have hst := process_message_stage_eq st resp pr hp
  rw [update_stage_no_marker resp pr.1.scores st.current_stage hm] at hst
  constructor
  · rw [hst]; exact heuristicStage_ge _ _
  · rw [hst]; exact heuristicStage_step _ _

/-- Witness for C9: a marker-free reply with a pre-set resume_fit score
at stage 2 leaves the stage at 2 (the stage-1 heuristic does not fire). -/
theorem C9_witness :
    extract_stage "thanks for sharing".data = none ∧
    process_message ⟨2, ⟨10, 0, 0⟩⟩ "thanks for sharing".data =
      Except.ok (⟨2, ⟨10, 0, 0⟩⟩, ⟨"thanks for sharing".data, 2, none⟩) ∧
    ((2 : Nat) ≤ (((⟨2, ⟨10, 0, 0⟩⟩, ⟨"thanks for sharing".data, 2, none⟩) :
        SessionState × Reply)).1.current_stage ∧
      ((((⟨2, ⟨10, 0, 0⟩⟩, ⟨"thanks for sharing".data, 2, none⟩) :
        SessionState × Reply)).1.current_stage = 2 ∨
       (((⟨2, ⟨10, 0, 0⟩⟩, ⟨"thanks for sharing".data, 2, none⟩) :
        SessionState × Reply)).1.current_stage = 2 + 1)) :=
  ⟨by decide, by decide,
    C9_no_marker_monotone ⟨2, ⟨10, 0, 0⟩⟩ "thanks for sharing".data
      (⟨2, ⟨10, 0, 0⟩⟩, ⟨"thanks for sharing".data, 2, none⟩)
      (by decide) (by decide)⟩

/-- C10 (confirmed): whenever `_extract_scores` returns a score
dictionary, every category value present in it lies between 0 and 100 —
and the clamp truncates rather than rejects: any value above 100 clamps
to 100 and any value below 0 clamps to 0. -/
theorem C10_parsed_scores_in_range (resp : List Char) (d : ScoresDict)
    (h : extract_scores resp = Except.ok (some d)) :
    (∀ q, d.resume_fit = some q → 0 ≤ q ∧ q ≤ 100) ∧
    (∀ q, d.hard_skills = some q → 0 ≤ q ∧ q ≤ 100) ∧
    (∀ q, d.soft_skills = some q → 0 ≤ q ∧ q ≤ 100) ∧
    (∀ q : ℚ, 100 < q → clampScore q = 100) ∧
    (∀ q : ℚ, q < 0 → clampScore q = 0) := by
  have hd : DictClamped d := by
    unfold extract_scores at h
    cases hft : findTagged scoresOpenTag scoresCloseTag resp with
    | none => rw [hft] at h; simp at h
    | some content =>
      rw [hft] at h
      dsimp only at h
      cases hjl : json_loads content with
      | none => rw [hjl] at h; simp at h
      | some v =>
        rw [hjl] at h
        cases v with
        | obj kvs =>
          dsimp only at h
          cases hap : applyEntries ⟨none, none, none⟩ kvs with
          | error e => rw [hap] at h; simp at h
          | ok d0 =>
            rw [hap] at h
            simp only [Except.ok.injEq, Option.some.injEq] at h
            subst h
            exact applyEntries_clamped kvs ⟨none, none, none⟩ d0
              ⟨fun _ hq => Option.noConfusion hq,
               fun _ hq => Option.noConfusion hq,
               fun _ hq => Option.noConfusion hq⟩ hap
        | null => simp at h
        | bool b => simp at h
        | num q => simp at h
        | str s => simp at h
        | arr elems => simp at h
  exact ⟨hd.1, hd.2.1, hd.2.2, clampScore_of_gt, clampScore_of_lt⟩

unseal Rat.add Rat.mul Rat.sub Rat.inv in
/-- Witness for C10: a block reporting 150 and -5 parses to the clamped
values 100 and 0. -/
theorem C10_witness :
    extract_scores
      "<SCORES>\x7b\"resume_fit\": 150, \"hard_skills\": -5\x7d</SCORES>".data =
      Except.ok (some ⟨some 100, some 0, none⟩) ∧
    ((∀ q, (ScoresDict.mk (some 100) (some 0) none).resume_fit = some q →
        0 ≤ q ∧ q ≤ 100) ∧
     (∀ q, (ScoresDict.mk (some 100) (some 0) none).hard_skills = some q →
        0 ≤ q ∧ q ≤ 100) ∧
     (∀ q, (ScoresDict.mk (some 100) (some 0) none).soft_skills = some q →
        0 ≤ q ∧ q ≤ 100) ∧
     (∀ q : ℚ, 100 < q → clampScore q = 100) ∧
     (∀ q : ℚ, q < 0 → clampScore q = 0)) :=
  ⟨by decide,
    C10_parsed_scores_in_range
      "<SCORES>\x7b\"resume_fit\": 150, \"hard_skills\": -5\x7d</SCORES>".data
      ⟨some 100, some 0, none⟩ (by decide)⟩
